import Mathlib

/-!
Verification of the roc service framework core (package rocserv):
client-side discovery / consistent-hash routing (clientV2.go) and the
server initialization pipeline (server.go), shallowly embedded in Lean.
-/

namespace Rocserv

/-! ## Wire data model

`ServInfo`, `RegData`, `ManualData` and the `BASE_LOC_*` path constants are
declared in a part of the repository that is not among the given sources;
their field shapes are visible from their uses in `clientV2.go`
(`c.reg.Servs`, `c.manual.Ctrl.Weight`, `c.manual.Ctrl.Disable`) and their
wire encodings come from the specification (§3, §6). -/

/-- Modelled from the spec: `ServInfo` = `{ type, addr }` (§3); the struct is
declared outside the given sources but used throughout `clientV2.go`. -/
structure ServInfo where
  type : String
  addr : String
deriving DecidableEq, Repr

/-- Modelled from the spec: `RegData` = `{ servs: mapping processor-name →
ServInfo }` (§3).  The Go field is `map[string]*ServInfo`, so entries may hold
nil pointers; the mapping is an association list whose values are `Option`. -/
structure RegData where
  servs : List (String × Option ServInfo)
deriving DecidableEq, Repr

/-- Modelled from the spec: `ManualData.ctrl` = `{ weight, disable, group }`
(§3); `Weight`/`Disable` uses are visible in `clientV2.go`. -/
structure ManualCtrl where
  weight : Int
  disable : Bool
  group : String
deriving DecidableEq, Repr

/-- Modelled from the spec: `ManualData` = `{ ctrl: ManualCtrl? }` (§3).
The Go `Ctrl` field is a pointer, hence `Option`. -/
structure ManualData where
  ctrl : Option ManualCtrl
deriving DecidableEq, Repr

/-- Structure `servCopyData` from clientV2.go: one peer instance as seen by the
discovery watcher.  `reg`/`manual` are pointers in Go, hence `Option`. -/
structure servCopyData where
  servId : Int
  reg : Option RegData
  manual : Option ManualData
deriving DecidableEq, Repr

/-- Modelled from the spec: path-layout constants (§3: `dist` for v1,
`dist/v2` for v2; slot children `reg` and `manual`).  Declared outside the
given sources. -/
def BASE_LOC_DIST : String := "dist"

/-- Modelled from the spec: the v2 distribution subtree name (§3). -/
def BASE_LOC_DIST_V2 : String := "dist/v2"

/-- Modelled from the spec: the per-slot registration child key (§3). -/
def BASE_LOC_REG_SERV : String := "reg"

/-- Modelled from the spec: the per-slot manual-control child key (§3). -/
def BASE_LOC_REG_MANUAL : String := "manual"

/-! ## Go-map association lists

Go maps are embedded as association lists; writing `m[k] = v` repeatedly
makes the *last* write win, so lookup scans for the last matching key. -/

/-- Lookup with last-write-wins semantics, as for a Go map built by
successive assignments. -/
def goLookup {α β : Type} [DecidableEq α] : List (α × β) → α → Option β
  | [], _ => none
  | (k, v) :: rest, key =>
    match goLookup rest key with
    | some w => some w
    | none => if k = key then some v else none

theorem goLookup_eq_none_of_not_mem {α β : Type} [DecidableEq α]
    (l : List (α × β)) (k : α) (h : k ∉ l.map Prod.fst) :
    goLookup l k = none := by
  induction l with
  | nil => rfl
  | cons p rest ih =>
    simp only [List.map_cons, List.mem_cons] at h
    push_neg at h
    obtain ⟨h1, h2⟩ := h
    simp only [goLookup, ih h2]
    simp only [ite_eq_right_iff]
    exact fun hkp => absurd hkp.symm h1

theorem goLookup_of_mem_nodup {α β : Type} [DecidableEq α]
    {l : List (α × β)} {k : α} {v : β}
    (hmem : (k, v) ∈ l) (hnd : (l.map Prod.fst).Nodup) :
    goLookup l k = some v := by
  induction l with
  | nil => cases hmem
  | cons p rest ih =>
    simp only [List.map_cons, List.nodup_cons] at hnd
    rcases List.mem_cons.1 hmem with heq | htail
    · subst heq
      have : goLookup rest k = none := by
        apply goLookup_eq_none_of_not_mem
        simpa using hnd.1
      simp [goLookup, this]
    · simp [goLookup, ih htail hnd.2]

theorem goLookup_map_values {α β γ : Type} [DecidableEq α]
    (f : β → γ) (l : List (α × β)) (k : α) :
    goLookup (l.map (fun p => (p.1, f p.2))) k = (goLookup l k).map f := by
  induction l with
  | nil => rfl
  | cons p rest ih =>
    simp only [List.map_cons, goLookup, ih]
    cases goLookup rest k with
    | none => by_cases h : p.1 = k <;> simp [h]
    | some w => simp

/-! ## strconv.Atoi and strings.Index -/

/-- Decimal digit run, as consumed by `strconv.Atoi` after the sign. -/
def parseDigits (cs : List Char) : Option Nat :=
  if cs = [] then none
  else if cs.all Char.isDigit then
    some (cs.foldl (fun n c => n * 10 + (c.toNat - 48)) 0)
  else none

/-- Function `strconv.Atoi`: optional sign, then decimal digits only
(64-bit range errors are not modelled). -/
def atoi (s : String) : Option Int :=
  match s.data with
  | [] => none
  | '-' :: rest => (parseDigits rest).map (fun n => -(n : Int))
  | '+' :: rest => (parseDigits rest).map (fun n => (n : Int))
  | l => (parseDigits l).map (fun n => (n : Int))

/-- Index of the first dash, over a character list. -/
def indexOfDash : List Char → Option Nat
  | [] => none
  | c :: rest =>
    if c = '-' then some 0 else (indexOfDash rest).map (· + 1)

/-- Function `strings.Index(s, "-")` (byte index; the modelled strings are ASCII,
so character index coincides). -/
def strIndexDash (s : String) : Option Nat := indexOfDash s.data

/-! ## JSON values and `encoding/json` decoding

Key values in the coordination store are JSON text.  A value is embedded as
`Option JVal`: `none` is the empty string (Go code tests `len(value) > 0`),
and a non-empty string is either parsed JSON or `jbad` (unparseable text).
Decoders mirror `json.Unmarshal` into the target Go types: unknown object
fields are ignored, missing fields keep the zero value, `null` leaves the
target untouched, and a type mismatch is an error.  On error the caller sees
the zero value (partial population of a partially valid document is not
modelled; no claim depends on it). -/

inductive JVal : Type where
  | jnull : JVal
  | jbool : Bool → JVal
  | jnum : Int → JVal
  | jstr : String → JVal
  | jobj : List (String × JVal) → JVal
  | jbad : JVal

/-- A string field of a Go struct: absent or `null` keeps the zero value
`""`; a non-string value is a decode error. -/
def getStrField (fields : List (String × JVal)) (name : String) : Option String :=
  match goLookup fields name with
  | none => some ""
  | some (JVal.jstr s) => some s
  | some JVal.jnull => some ""
  | some _ => none

/-- Decoding `json.Unmarshal` into `ServInfo` (fields `type`, `addr` per the spec's
wire payload, §6). -/
def decodeServInfo (j : JVal) : Option ServInfo :=
  match j with
  | JVal.jobj fields =>
    match getStrField fields "type", getStrField fields "addr" with
    | some t, some a => some { type := t, addr := a }
    | _, _ => none
  | _ => none

/-- Decoding `json.Unmarshal` into `*ServInfo`: `null` decodes to a nil pointer. -/
def decodeServInfoPtr (j : JVal) : Option (Option ServInfo) :=
  match j with
  | JVal.jnull => some none
  | _ => (decodeServInfo j).map some

/-- Entry-wise decoding of a JSON object into `map[string]*ServInfo`. -/
def decodeServsList : List (String × JVal) → Option (List (String × Option ServInfo))
  | [] => some []
  | (k, v) :: rest =>
    match decodeServInfoPtr v, decodeServsList rest with
    | some si, some l => some ((k, si) :: l)
    | _, _ => none

/-- Decoding `json.Unmarshal` into `map[string]*ServInfo` (the v1 slot payload). -/
def decodeServs (j : JVal) : Option (List (String × Option ServInfo)) :=
  match j with
  | JVal.jobj fields => decodeServsList fields
  | JVal.jnull => some []
  | _ => none

/-- Decoding `json.Unmarshal` into `RegData` (field `servs` per the spec's wire
payload, §6). -/
def decodeRegData (j : JVal) : Option RegData :=
  match j with
  | JVal.jobj fields =>
    match goLookup fields "servs" with
    | none => some { servs := [] }
    | some JVal.jnull => some { servs := [] }
    | some v => (decodeServs v).map (fun s => { servs := s })
  | JVal.jnull => some { servs := [] }
  | _ => none

/-- An integer field: absent or `null` keeps `0`; non-number is an error. -/
def getIntField (fields : List (String × JVal)) (name : String) : Option Int :=
  match goLookup fields name with
  | none => some 0
  | some (JVal.jnum n) => some n
  | some JVal.jnull => some 0
  | some _ => none

/-- A boolean field: absent or `null` keeps `false`; non-bool is an error. -/
def getBoolField (fields : List (String × JVal)) (name : String) : Option Bool :=
  match goLookup fields name with
  | none => some false
  | some (JVal.jbool b) => some b
  | some JVal.jnull => some false
  | some _ => none

/-- Decoding `json.Unmarshal` into `ManualCtrl` (fields `weight`, `disable`, `group`
per the spec's wire payload, §6). -/
def decodeManualCtrl (j : JVal) : Option ManualCtrl :=
  match j with
  | JVal.jobj fields =>
    match getIntField fields "weight", getBoolField fields "disable",
        getStrField fields "group" with
    | some w, some d, some g => some { weight := w, disable := d, group := g }
    | _, _, _ => none
  | _ => none

/-- Decoding `json.Unmarshal` into `ManualData` (field `ctrl`, a pointer: `null` or
absent is nil). -/
def decodeManualData (j : JVal) : Option ManualData :=
  match j with
  | JVal.jobj fields =>
    match goLookup fields "ctrl" with
    | none => some { ctrl := none }
    | some JVal.jnull => some { ctrl := none }
    | some v => (decodeManualCtrl v).map (fun c => { ctrl := some c })
  | JVal.jnull => some { ctrl := none }
  | _ => none

/-- Encoding of `*ServInfo` as JSON (used to build well-formed store
contents for the v1/v2 equivalence statement). -/
def encodeServInfoPtr : Option ServInfo → JVal
  | none => JVal.jnull
  | some si => JVal.jobj [("type", JVal.jstr si.type), ("addr", JVal.jstr si.addr)]

/-- Encoding of a processor map as a JSON object. -/
def encodeServs (servs : List (String × Option ServInfo)) : JVal :=
  JVal.jobj (servs.map (fun p => (p.1, encodeServInfoPtr p.2)))

/-! ## The etcd response tree -/

/-- One node of a recursive etcd GET response: key, directory flag, value
(`none` = empty), children. -/
inductive EtcdNode : Type where
  | mk : String → Bool → Option JVal → List EtcdNode → EtcdNode

def EtcdNode.key : EtcdNode → String
  | .mk k _ _ _ => k

def EtcdNode.dir : EtcdNode → Bool
  | .mk _ d _ _ => d

def EtcdNode.value : EtcdNode → Option JVal
  | .mk _ _ v _ => v

def EtcdNode.nodes : EtcdNode → List EtcdNode
  | .mk _ _ _ ns => ns

/-! ## ClientEtcdV2 -/

/-- The mutable discovery state of `ClientEtcdV2`: the sticky distribution
version, the watched path, and the (servCopy, ring) pair replaced together
under the client mutex.  The ring is represented by its virtual-member label
list; `servHash = none` is the nil `*consistent.Consistent` before the first
snapshot. -/
structure ClientState where
  distLoc : String
  servPath : String
  servCopy : List (Int × Option servCopyData)
  servHash : Option (List String)
deriving DecidableEq, Repr

/-- Sorting as `sort.Ints`, by insertion. -/
def insertSorted (x : Int) : List Int → List Int
  | [] => [x]
  | y :: rest => if x ≤ y then x :: y :: rest else y :: insertSorted x rest

/-- Ascending sort of the collected slot ids (`sort.Ints(ids)`). -/
def sortInts : List Int → List Int
  | [] => []
  | x :: rest => insertSorted x (sortInts rest)

/-- The weight variable of `upServlist` before the zero-default: 0 unless
both `manual` and `manual.Ctrl` are non-nil. -/
def manualWeight0 : Option ManualData → Int
  | some m =>
    match m.ctrl with
    | some c => c.weight
    | none => 0
  | none => 0

/-- The disable flag read by `upServlist` and `getServAddrWithServid`:
false unless both `manual` and `manual.Ctrl` are non-nil. -/
def manualDisabled : Option ManualData → Bool
  | some m =>
    match m.ctrl with
    | some c => c.disable
    | none => false
  | none => false

/-- The effective ring weight of `upServlist`: the manual weight, defaulted
to 100 when it is zero (clientV2.go lines 426-434). -/
def effectiveWeight (m : Option ManualData) : Int :=
  if manualWeight0 m = 0 then 100 else manualWeight0 m

/-- Virtual-member labels contributed by one slot of the copy map
(the body of the `upServlist` loop): nil copies, nil or empty `reg.servs`,
and disabled slots contribute nothing; otherwise `"<sid>-<i>"` for
`i < weight`. -/
def slotLabels (sid : Int) (c : Option servCopyData) : List String :=
  match c with
  | none => []
  | some c =>
    match c.reg with
    | none => []
    | some r =>
      if r.servs.isEmpty then []
      else if manualDisabled c.manual then []
      else (List.range (effectiveWeight c.manual).toNat).map
        (fun i => s!"{sid}-{i}")

/-- The full label list `slist` built by `upServlist` over the copy map. -/
def servListOf : List (Int × Option servCopyData) → List String
  | [] => []
  | (sid, c) :: rest => slotLabels sid c ++ servListOf rest

/-- Function `upServlist`: build the label list, then atomically install the fresh
ring and the new copy map. -/
def upServlist (st : ClientState) (scopy : List (Int × Option servCopyData)) :
    ClientState :=
  { st with servHash := some (servListOf scopy), servCopy := scopy }

/-- Modelled from the spec: the lookup of the external consistent-hash
library `consistent.Get` (not part of this repository).  Per §4.6 it errors
on an empty ring and otherwise deterministically maps the key to one member;
determinism is realized by a simple string hash. -/
def strHash (s : String) : Nat :=
  s.data.foldl (fun h c => h * 131 + c.toNat) 7

/-- Modelled from the spec: `consistent.Get` returns an error (`none`) on an
empty ring, else a member chosen by the key's hash. -/
def consistentGet (elts : List String) (key : String) : Option String :=
  match elts with
  | [] => none
  | _ => elts.get? (strHash key % elts.length)

/-- Function `getServAddrWithServid` (clientV2.go lines 490-503): look up the copy,
require non-nil `reg`, return nil if manually disabled, else the processor's
endpoint. -/
def getServAddrWithServid (scopy : List (Int × Option servCopyData))
    (servid : Int) (processor : String) : Option ServInfo :=
  match goLookup scopy servid with
  | some (some c) =>
    match c.reg with
    | some r =>
      if manualDisabled c.manual then none
      else
        match goLookup r.servs processor with
        | some (some p) => some p
        | _ => none
    | none => none
  | _ => none

/-- The ring-lookup prefix of `GetServAddr` (clientV2.go lines 464-485):
nil ring or empty ring or malformed label or negative id all yield nil;
otherwise the parsed servId. -/
def ringPickSid (st : ClientState) (key : String) : Option Int :=
  match st.servHash with
  | none => none
  | some elts =>
    match consistentGet elts key with
    | none => none
    | some s =>
      match strIndexDash s with
      | none => none
      | some idx =>
        match atoi (s.take idx) with
        | some sid => if sid < 0 then none else some sid
        | none => none

/-- Function `GetServAddr`: ring lookup, then single-slot routing. -/
def GetServAddr (st : ClientState) (processor key : String) : Option ServInfo :=
  match ringPickSid st key with
  | none => none
  | some sid => getServAddrWithServid st.servCopy sid processor

/-! ## Snapshot parsing -/

/-- The inner scan of `parseResponseV2` collecting the `reg` and `manual`
child values of one slot directory. -/
def scanRegManual (nkey : String) (ncs : List EtcdNode) :
    Option JVal × Option JVal :=
  ncs.foldl
    (fun acc nc =>
      if nc.key = nkey ++ "/" ++ BASE_LOC_REG_SERV then (nc.value, acc.2)
      else if nc.key = nkey ++ "/" ++ BASE_LOC_REG_MANUAL then (acc.1, nc.value)
      else acc)
    (none, none)

/-- First pass of `parseResponseV2` over the children of the service
directory: abort the whole snapshot (`none`) on a non-directory child; skip
children whose name is not a non-negative integer; collect
`(servId, reg value, manual value)` otherwise. -/
def v2Strs (rootKey : String) : List EtcdNode → Option (List (Int × Option JVal × Option JVal))
  | [] => some []
  | n :: rest =>
    if n.dir then
      match atoi (n.key.drop (rootKey.length + 1)) with
      | none => v2Strs rootKey rest
      | some id =>
        if id < 0 then v2Strs rootKey rest
        else
          match v2Strs rootKey rest with
          | none => none
          | some l => some ((id, scanRegManual n.key n.nodes) :: l)
    else none

/-- Second pass of `parseResponseV2`: ids sorted ascending, the copy map
keyed once per id (Go map semantics), `reg`/`manual` pointers always
non-nil in v2, decode errors keeping the zero value. -/
def buildV2 (strs : List (Int × Option JVal × Option JVal)) :
    List (Int × Option servCopyData) :=
  ((sortInts (strs.map Prod.fst)).dedup).filterMap
    (fun i =>
      match goLookup strs i with
      | none => none
      | some (regv, manv) =>
        let regd : RegData :=
          match regv with
          | none => { servs := [] }
          | some j => (decodeRegData j).getD { servs := [] }
        let mand : ManualData :=
          match manv with
          | none => { ctrl := none }
          | some j => (decodeManualData j).getD { ctrl := none }
        some (i, some { servId := i, reg := some regd, manual := some mand }))

/-- Function `parseResponseV2`: abort on a malformed directory, else install the
reassembled copy map. -/
def parseResponseV2 (st : ClientState) (root : EtcdNode) : ClientState :=
  match v2Strs root.key root.nodes with
  | none => st
  | some strs => upServlist st (buildV2 strs)

/-- First pass of `parseResponseV1`: collect `(servId, slot value)`,
skipping children whose name is not a non-negative integer. -/
def v1Strs (rootKey : String) : List EtcdNode → List (Int × Option JVal)
  | [] => []
  | n :: rest =>
    match atoi (n.key.drop (rootKey.length + 1)) with
    | none => v1Strs rootKey rest
    | some id =>
      if id < 0 then v1Strs rootKey rest
      else (id, n.value) :: v1Strs rootKey rest

/-- Second pass of `parseResponseV1`: the slot value decodes directly to
`reg.servs`; `manual` is nil. -/
def buildV1 (strs : List (Int × Option JVal)) :
    List (Int × Option servCopyData) :=
  ((sortInts (strs.map Prod.fst)).dedup).filterMap
    (fun i =>
      match goLookup strs i with
      | none => none
      | some v =>
        let servs : List (String × Option ServInfo) :=
          match v with
          | none => []
          | some j => (decodeServs j).getD []
        some (i, some { servId := i, reg := some { servs := servs }, manual := none }))

/-- Function `parseResponseV1`. -/
def parseResponseV1 (st : ClientState) (root : EtcdNode) : ClientState :=
  upServlist st (buildV1 (v1Strs root.key root.nodes))

/-- Function `parseResponse` (clientV2.go lines 235-262): ignore non-directory
responses, dispatch on the sticky distribution version. -/
def parseResponse (st : ClientState) (root : EtcdNode) : ClientState :=
  if !root.dir then st
  else if st.distLoc = BASE_LOC_DIST then parseResponseV1 st root
  else if st.distLoc = BASE_LOC_DIST_V2 then parseResponseV2 st root
  else st

/-! ## Construction and version probing -/

/-- Whether some slot directory of the v2 response shows a non-empty `reg`
child (the inner loops of `checkDistVersion`). -/
def hasRegChild (root : EtcdNode) : Bool :=
  root.nodes.any (fun n =>
    n.nodes.any (fun nc =>
      nc.key = n.key ++ "/" ++ BASE_LOC_REG_SERV && nc.value.isSome))

/-- The v1 fallback tail of `checkDistVersion`: v1 if the v1 path is
readable, else v2. -/
def checkDistV1Fallback (store : String → Option EtcdNode)
    (prefloc servlocation : String) : String :=
  match store (prefloc ++ "/" ++ BASE_LOC_DIST ++ "/" ++ servlocation) with
  | some _ => BASE_LOC_DIST
  | none => BASE_LOC_DIST_V2

/-- Function `checkDistVersion` (clientV2.go lines 89-121): probe v2 first and use it
when some slot shows a non-empty `reg` child; otherwise fall through to the
v1 probe.  The store is a function from path to GET result (`none` = GET
error). -/
def checkDistVersion (store : String → Option EtcdNode)
    (prefloc servlocation : String) : String :=
  match store (prefloc ++ "/" ++ BASE_LOC_DIST_V2 ++ "/" ++ servlocation) with
  | some root =>
    if hasRegChild root then BASE_LOC_DIST_V2
    else checkDistV1Fallback store prefloc servlocation
  | none => checkDistV1Fallback store prefloc servlocation

/-- Constructor `NewClientEtcdV2`: the freshly built client state — version probed once,
empty copy map, nil ring. -/
def newClientState (store : String → Option EtcdNode)
    (useBaseloc servlocation : String) : ClientState :=
  let dl := checkDistVersion store useBaseloc servlocation
  { distLoc := dl
    servPath := useBaseloc ++ "/" ++ dl ++ "/" ++ servlocation
    servCopy := []
    servHash := none }

/-! ## Server initialization (server.go)

`Server.Init` drives collaborators whose code is outside the given sources
(`NewServBaseV2`, backdoor/metrics registration, the cross-DC mirror); each
is represented by its outcome, and its coordination-store writes are
recorded as effects, modelled from the spec (§4.2: slot allocation creates
the slot directory in the store; §4.4: backdoor and metrics registration
publish under separate store keys). -/

def MODEL_SERVER : Nat := 0

def MODEL_MASTERSLAVE : Nat := 1

/-- Coordination-store writes performed during initialization. -/
inductive Effect : Type where
  | csCreateSlot : Effect
  | csRegisterBackdoor : Effect
  | csRegisterService : Effect
  | csRegisterCrossDC : Effect
  | csSetGroupAndDisable : Effect
  | csRegisterMetrics : Effect
deriving DecidableEq, Repr

/-- A user processor, represented by the outcome of its `Init()`. -/
structure Processor where
  initErr : Option String
deriving DecidableEq, Repr

/-- Check `s[0] == '_'` after the emptiness check of `initProcessor`. -/
def headIsUnderscore (s : String) : Bool :=
  match s.data with
  | [] => false
  | c :: _ => c = '_'

/-- The reserved-name error message of `initProcessor`
(server.go line 349). -/
def underscoreMsg : String := "processor name can not prefix \x27_\x27"

/-- The validation loop of `Server.initProcessor` (server.go lines 341-362):
empty name, leading underscore, nil processor, failing `Init()`, in that
order per entry; the processor map is taken in one iteration order. -/
def validateProcs : List (String × Option Processor) → Option String
  | [] => none
  | (n, p) :: rest =>
    if n.length = 0 then some "processor name empty"
    else if headIsUnderscore n then some underscoreMsg
    else
      match p with
      | none => some ("processor:" ++ n ++ " is nil")
      | some proc =>
        match proc.initErr with
        | some e => some ("processor:" ++ n ++ " init err:" ++ e)
        | none => validateProcs rest

/-- Outcomes of the collaborators `Server.Init` drives; those declared
outside the given sources are modelled from the spec (§4.2, §4.4, §7). -/
structure InitEnv where
  servBaseOk : Bool
  backdoorOk : Bool
  lockOk : Bool
  initfnErr : Option String
  loadDriverErr : Option String
  registerServiceErr : Option String
  registerCrossDCErr : Option String
  metricsOk : Bool
  model : Nat
deriving DecidableEq, Repr

/-- Function `Server.initProcessor` (server.go lines 338-384): validate every entry,
bind drivers, `RegisterService`, then `RegisterCrossDCService`; the error of
every step, the cross-DC one included, is returned.  The store writes
performed before the returned outcome are listed. -/
def initProcessor (env : InitEnv) (procs : List (String × Option Processor)) :
    List Effect × Option String :=
  match validateProcs procs with
  | some e => ([], some e)
  | none =>
    match env.loadDriverErr with
    | some e => ([], some e)
    | none =>
      match env.registerServiceErr with
      | some e => ([], some e)
      | none =>
        match env.registerCrossDCErr with
        | some e => ([Effect.csRegisterService], some e)
        | none => ([Effect.csRegisterService, Effect.csRegisterCrossDC], none)

/-- Function `Server.Init` (server.go lines 244-299): ServBase construction
(allocating the slot in the store), backdoor startup (return value ignored
by Init), master/slave lock, application init, `initProcessor`,
`SetGroupAndDisable`, metrics.  Returns the store writes performed and the
final outcome. -/
def InitServer (env : InitEnv) (procs : List (String × Option Processor)) :
    List Effect × Option String :=
  if !env.servBaseOk then ([], some "servbase init error")
  else
    let e2 : List Effect :=
      Effect.csCreateSlot ::
        (if env.backdoorOk then [Effect.csRegisterBackdoor] else [])
    if env.model = MODEL_MASTERSLAVE && !env.lockOk then
      (e2, some "lock global error")
    else
      match env.initfnErr with
      | some e => (e2, some e)
      | none =>
        match initProcessor env procs with
        | (pe, some e) => (e2 ++ pe, some e)
        | (pe, none) =>
          (e2 ++ pe ++ [Effect.csSetGroupAndDisable] ++
            (if env.metricsOk then [Effect.csRegisterMetrics] else []), none)

/-- Substring containment, for the reserved-name error-message property. -/
def containsSubstr (s sub : String) : Prop :=
  ∃ pre post : String, s = pre ++ sub ++ post

/-! ## Helper lemmas -/

theorem servListOf_append (l1 l2 : List (Int × Option servCopyData)) :
    servListOf (l1 ++ l2) = servListOf l1 ++ servListOf l2 := by
  induction l1 with
  | nil => rfl
  | cons p rest ih =>
    obtain ⟨sid, c⟩ := p
    simp [servListOf, ih]

theorem mem_servListOf {l : String} {scopy : List (Int × Option servCopyData)}
    (h : l ∈ servListOf scopy) :
    ∃ p ∈ scopy, l ∈ slotLabels p.1 p.2 := by
  induction scopy with
  | nil => cases h
  | cons p rest ih =>
    obtain ⟨sid, c⟩ := p
    rcases List.mem_append.1 h with h1 | h2
    · exact ⟨(sid, c), List.mem_cons_self _ _, h1⟩
    · obtain ⟨q, hq, hl⟩ := ih h2
      exact ⟨q, List.mem_cons_of_mem _ hq, hl⟩

theorem goLookup_mem {α β : Type} [DecidableEq α]
    {l : List (α × β)} {k : α} {v : β} (h : goLookup l k = some v) :
    (k, v) ∈ l := by
  induction l with
  | nil => cases h
  | cons p rest ih =>
    simp only [goLookup] at h
    cases hres : goLookup rest k with
    | some w =>
      rw [hres] at h
      cases h
      exact List.mem_cons_of_mem _ (ih hres)
    | none =>
      rw [hres] at h
      by_cases hk : p.1 = k
      · rw [if_pos hk] at h
        cases h
        subst hk
        exact List.mem_cons_self _ _
      · rw [if_neg hk] at h
        cases h

theorem string_append_empty_left (s : String) : "" ++ s = s := by
  cases s with
  | mk data => show String.mk ([] ++ data) = String.mk data ; rw [List.nil_append]

theorem string_append_empty_right (s : String) : s ++ "" = s := by
  cases s with
  | mk data => show String.mk (data ++ []) = String.mk data ; rw [List.append_nil]

theorem containsSubstr_self (s : String) : containsSubstr s s :=
  ⟨"", "", by rw [string_append_empty_left, string_append_empty_right]⟩

/-- Slicing off the parent key and the separating slash recovers the child
name: `childKey[len(parentKey)+1:] = name` when
`childKey = parentKey ++ "/" ++ name`. -/
theorem drop_parent_key (s t : String) :
    (s ++ "/" ++ t).drop (s.length + 1) = t := by
  apply String.ext
  rw [String.data_drop, String.data_append, String.data_append]
  have hlen : s.length = s.data.length := rfl
  have hslash : ("/" : String).data = ['/'] := rfl
  rw [hlen, hslash]
  have : s.data.length + 1 = (s.data ++ ['/']).length := by
    simp
  rw [this, List.drop_left]

/-! ## Concrete fixtures -/

/-- A one-processor registration payload. -/
def regFix : RegData :=
  { servs := [("api", some { type := "http", addr := "127.0.0.1:40001" })] }

/-- A slot with explicit manual weight `w`, not disabled. -/
def slotFix (w : Int) : servCopyData :=
  { servId := 1, reg := some regFix
    manual := some { ctrl := some { weight := w, disable := false, group := "" } } }

/-- A manually disabled slot. -/
def slotDisabled : servCopyData :=
  { servId := 1, reg := some regFix
    manual := some { ctrl := some { weight := 0, disable := true, group := "" } } }

/-- A client state whose ring holds the single label "1-0" over a disabled
copy (the defensive-read scenario). -/
def stDisabled : ClientState :=
  { distLoc := BASE_LOC_DIST_V2, servPath := "", servCopy := [(1, some slotDisabled)]
    servHash := some ["1-0"] }

/-! ## C3 — effective ring weight -/

/-- C3: for every slot in a discovery snapshot, the effective ring weight is
the `manual.ctrl.weight` value when manual data is present and its weight
is nonzero, and 100 when manual data is absent (or carries no ctrl block)
or its weight is zero. -/
theorem claim3_effective_weight (m : Option ManualData) :
    (∀ md c, m = some md → md.ctrl = some c → c.weight ≠ 0 →
      effectiveWeight m = c.weight) ∧
    ((m = none ∨ ∃ md, m = some md ∧
        (md.ctrl = none ∨ ∃ c, md.ctrl = some c ∧ c.weight = 0)) →
      effectiveWeight m = 100) := by
  constructor
  · rintro md c rfl hc hw
    simp [effectiveWeight, manualWeight0, hc, hw]
  · rintro (rfl | ⟨md, rfl, hctl | ⟨c, hc, hw⟩⟩)
    · simp [effectiveWeight, manualWeight0]
    · simp [effectiveWeight, manualWeight0, hctl]
    · simp [effectiveWeight, manualWeight0, hc, hw]

/-- C3 witness: a present nonzero manual weight is taken verbatim; an absent
manual defaults to 100. -/
theorem claim3_witness :
    effectiveWeight (some { ctrl := some { weight := 7, disable := false, group := "" } }) = 7 ∧
    effectiveWeight none = 100 :=
  ⟨(claim3_effective_weight _).1 _ _ rfl rfl (by decide),
   (claim3_effective_weight none).2 (Or.inl rfl)⟩

/-! ## C4 — disabled slots contribute nothing and route to nil -/

/-- C4: a slot whose `manual.ctrl.disable` is true emits zero virtual ring
members, and single-slot routing (`getServAddrWithServid`, hence both
`GetServAddrWithServid` and `GetServAddr` after its ring lookup) returns nil
for that servId regardless of processor name or key. -/
theorem claim4_disable_drops (c : servCopyData)
    (hd : manualDisabled c.manual = true) :
    (∀ sid : Int, slotLabels sid (some c) = []) ∧
    (∀ (scopy : List (Int × Option servCopyData)) (sid : Int) (proc : String),
      goLookup scopy sid = some (some c) →
      getServAddrWithServid scopy sid proc = none) ∧
    (∀ (st : ClientState) (proc key : String) (sid : Int),
      ringPickSid st key = some sid →
      goLookup st.servCopy sid = some (some c) →
      GetServAddr st proc key = none) := by
  obtain ⟨csid, creg, cman⟩ := c
  simp only at hd
  have h2 : ∀ (scopy : List (Int × Option servCopyData)) (sid : Int) (proc : String),
      goLookup scopy sid = some (some ⟨csid, creg, cman⟩) →
      getServAddrWithServid scopy sid proc = none := by
    intro scopy sid proc hlk
    unfold getServAddrWithServid
    rw [hlk]
    cases creg with
    | none => rfl
    | some r => simp [hd]
  refine ⟨?_, h2, ?_⟩
  · intro sid
    unfold slotLabels
    cases creg with
    | none => rfl
    | some r =>
      by_cases he : r.servs.isEmpty <;> simp [he, hd]
  · intro st proc key sid hpick hlk
    unfold GetServAddr
    rw [hpick]
    exact h2 st.servCopy sid proc hlk

/-- C4 witness: the disabled fixture emits no labels and both routing entry
points return nil even while its servId is still in the ring. -/
theorem claim4_witness :
    slotLabels 1 (some slotDisabled) = [] ∧
    getServAddrWithServid [(1, some slotDisabled)] 1 "api" = none ∧
    GetServAddr stDisabled "api" "k" = none :=
  ⟨(claim4_disable_drops slotDisabled rfl).1 1,
   (claim4_disable_drops slotDisabled rfl).2.1 [(1, some slotDisabled)] 1 "api" (by decide),
   (claim4_disable_drops slotDisabled rfl).2.2 stDisabled "api" "k" 1 (by decide) (by decide)⟩

/-! ## C5 — ring labels are backed by live copies and enumerate the weight -/

/-- C5: after a ring rebuild, every servId appearing in a ring label has a
`ServCopy` in the installed map with non-nil `reg` and non-empty
`reg.servs`; and the labels emitted for a non-disabled instance of
effective weight `w` are exactly `"<servId>-0" … "<servId>-(w-1)"`. -/
theorem claim5_ring_invariants (scopy : List (Int × Option servCopyData))
    (hnd : (scopy.map Prod.fst).Nodup) :
    (∀ l ∈ servListOf scopy, ∃ (sid : Int) (i : Nat) (c : servCopyData) (r : RegData),
      l = s!"{sid}-{i}" ∧ goLookup scopy sid = some (some c) ∧
      c.reg = some r ∧ r.servs ≠ []) ∧
    (∀ (sid : Int) (c : servCopyData) (r : RegData),
      c.reg = some r → r.servs ≠ [] → manualDisabled c.manual = false →
      slotLabels sid (some c) =
        (List.range (effectiveWeight c.manual).toNat).map (fun i => s!"{sid}-{i}")) := by
  constructor
  · intro l hl
    obtain ⟨⟨sid, copt⟩, hmem, hlab⟩ := mem_servListOf hl
    cases copt with
    | none => cases hlab
    | some c =>
      obtain ⟨csid, creg, cman⟩ := c
      cases creg with
      | none => cases hlab
      | some r =>
        by_cases he : r.servs.isEmpty
        · simp [slotLabels, he] at hlab
        · by_cases hdis : manualDisabled cman
          · simp [slotLabels, he, hdis] at hlab
          · simp only [slotLabels, if_neg he, if_neg hdis, List.mem_map] at hlab
            obtain ⟨i, _, rfl⟩ := hlab
            refine ⟨sid, i, ⟨csid, some r, cman⟩, r, rfl,
              goLookup_of_mem_nodup hmem hnd, rfl, ?_⟩
            intro h0
            rw [h0] at he
            exact he rfl
  · intro sid c r hr hne hdis
    obtain ⟨csid, creg, cman⟩ := c
    simp only at hr hdis ⊢
    cases creg with
    | none => exact Option.noConfusion hr
    | some r' =>
      cases Option.some.inj hr
      have he : r.servs.isEmpty = false := by
        cases hs : r.servs with
        | nil => exact absurd hs hne
        | cons a t => rfl
      simp [slotLabels, he, hdis]

/-- C5 witness: for a weight-2 live slot the emitted labels are exactly
"1-0" and "1-1", and the label "1-0" is backed by a live copy. -/
theorem claim5_witness :
    slotLabels 1 (some (slotFix 2)) =
      (List.range (effectiveWeight (slotFix 2).manual).toNat).map
        (fun i => s!"{(1 : Int)}-{i}") ∧
    (∃ (sid : Int) (i : Nat) (c : servCopyData) (r : RegData),
      ("1-0" : String) = s!"{sid}-{i}" ∧
      goLookup [((1 : Int), some (slotFix 2))] sid = some (some c) ∧
      c.reg = some r ∧ r.servs ≠ []) :=
  ⟨(claim5_ring_invariants [((1 : Int), some (slotFix 2))] (by decide)).2
      1 (slotFix 2) regFix rfl (by decide) rfl,
   (claim5_ring_invariants [((1 : Int), some (slotFix 2))] (by decide)).1
      "1-0" (by decide)⟩

/-! ## C9 — an empty ring always routes to nil -/

theorem slotLabels_eq_nil_of_dropped (sid : Int) (copt : Option servCopyData)
    (h : copt = none ∨ ∃ c, copt = some c ∧
      (c.reg = none ∨ (∃ r, c.reg = some r ∧ r.servs = []) ∨
        manualDisabled c.manual = true)) :
    slotLabels sid copt = [] := by
  rcases h with rfl | ⟨c, rfl, hc⟩
  · rfl
  · obtain ⟨csid, creg, cman⟩ := c
    simp only at hc
    rcases hc with hr | ⟨r, hr, hserv⟩ | hdis
    · cases creg with
      | none => rfl
      | some r => exact Option.noConfusion hr
    · cases creg with
      | none => exact Option.noConfusion hr
      | some r' =>
        cases Option.some.inj hr
        simp [slotLabels, hserv]
    · cases creg with
      | none => rfl
      | some r =>
        by_cases he : r.servs.isEmpty <;> simp [slotLabels, he, hdis]

/-- C9: `GetServAddr` returns nil whenever the ring is empty — before any
snapshot (`servHash` still nil), with an installed empty ring, and after a
snapshot in which every instance is dropped (nil copy, nil `reg`, empty
`reg.servs`) or disabled. -/
theorem claim9_empty_ring (st : ClientState) (proc key : String) :
    (st.servHash = none → GetServAddr st proc key = none) ∧
    (st.servHash = some [] → GetServAddr st proc key = none) ∧
    (∀ scopy : List (Int × Option servCopyData),
      (∀ p ∈ scopy, p.2 = none ∨ ∃ c, p.2 = some c ∧
        (c.reg = none ∨ (∃ r, c.reg = some r ∧ r.servs = []) ∨
          manualDisabled c.manual = true)) →
      GetServAddr (upServlist st scopy) proc key = none) := by
  have hnil : ∀ st' : ClientState, st'.servHash = none →
      GetServAddr st' proc key = none := by
    intro st' h
    unfold GetServAddr ringPickSid
    rw [h]
  have hempty : ∀ st' : ClientState, st'.servHash = some [] →
      GetServAddr st' proc key = none := by
    intro st' h
    unfold GetServAddr ringPickSid
    rw [h]
    rfl
  refine ⟨hnil st, hempty st, ?_⟩
  intro scopy hdrop
  apply hempty
  show some (servListOf scopy) = some []
  congr 1
  induction scopy with
  | nil => rfl
  | cons p rest ih =>
    obtain ⟨sid, copt⟩ := p
    have h1 : slotLabels sid copt = [] :=
      slotLabels_eq_nil_of_dropped sid copt (hdrop (sid, copt) (List.mem_cons_self _ _))
    have h2 := ih (fun q hq => hdrop q (List.mem_cons_of_mem _ hq))
    simp [servListOf, h1, h2]

/-- A freshly constructed client state: empty copy map, nil ring. -/
def stFresh : ClientState :=
  { distLoc := BASE_LOC_DIST_V2, servPath := "", servCopy := [], servHash := none }

/-- C9 witness: nil ring before any snapshot, and an all-disabled snapshot,
both route to nil. -/
theorem claim9_witness :
    GetServAddr stFresh "api" "x" = none ∧
    GetServAddr (upServlist stFresh [(1, some slotDisabled)]) "api" "x" = none :=
  ⟨(claim9_empty_ring _ "api" "x").1 rfl,
   (claim9_empty_ring _ "api" "x").2.2 [(1, some slotDisabled)]
     (by
       intro p hp
       rw [List.mem_singleton] at hp
       subst hp
       exact Or.inr ⟨slotDisabled, rfl, Or.inr (Or.inr rfl)⟩)⟩

/-! ## C10 — v2 reassembly: abort on non-directory child, skip on bad name -/

theorem v2Strs_none_of_nondir (rootKey : String) {l : List EtcdNode}
    (h : ∃ n ∈ l, n.dir = false) : v2Strs rootKey l = none := by
  induction l with
  | nil =>
    obtain ⟨n, hn, _⟩ := h
    cases hn
  | cons m rest ih =>
    obtain ⟨n, hn, hnd⟩ := h
    rcases List.mem_cons.1 hn with rfl | htail
    · simp [v2Strs, hnd]
    · by_cases hdir : m.dir
      · have hrest := ih ⟨n, htail, hnd⟩
        cases hato : atoi (m.key.drop (rootKey.length + 1)) with
        | none => simp [v2Strs, hdir, hato, hrest]
        | some id => simp [v2Strs, hdir, hato, hrest]
      · simp [v2Strs, hdir]

theorem v2Strs_skip (rootKey name : String) (bad : EtcdNode)
    (hdir : bad.dir = true) (hkey : bad.key = rootKey ++ "/" ++ name)
    (hname : atoi name = none ∨ ∃ id, atoi name = some id ∧ id < 0) :
    ∀ pre post, v2Strs rootKey (pre ++ bad :: post) = v2Strs rootKey (pre ++ post) := by
  intro pre
  induction pre with
  | nil =>
    intro post
    simp only [List.nil_append]
    have hdrop : bad.key.drop (rootKey.length + 1) = name := by
      rw [hkey]
      exact drop_parent_key rootKey name
    rcases hname with h | ⟨id, hid, hneg⟩
    · simp [v2Strs, hdir, hdrop, h]
    · simp [v2Strs, hdir, hdrop, hid, hneg]
  | cons m rest ih =>
    intro post
    simp only [List.cons_append, v2Strs, List.append_eq]
    rw [ih post]

/-- C10: during v2 reassembly, a non-directory child of the service
directory discards the entire snapshot (the previously installed ring and
copy map stay untouched), while a directory child whose name does not parse
as a non-negative integer is merely skipped: the snapshot is processed as
if that child were absent. -/
theorem claim10_v2_abort_and_skip (st : ClientState) (root : EtcdNode)
    (hv2 : st.distLoc = BASE_LOC_DIST_V2) :
    ((∃ n ∈ root.nodes, n.dir = false) → parseResponse st root = st) ∧
    (∀ (pre post : List EtcdNode) (bad : EtcdNode) (name : String),
      root.nodes = pre ++ bad :: post → bad.dir = true →
      bad.key = root.key ++ "/" ++ name →
      (atoi name = none ∨ ∃ id, atoi name = some id ∧ id < 0) →
      parseResponse st root =
        parseResponse st (EtcdNode.mk root.key root.dir root.value (pre ++ post))) := by
  have hne : ¬(st.distLoc = BASE_LOC_DIST) := by
    rw [hv2]
    decide
  have h1 : (st.distLoc = BASE_LOC_DIST) = False := eq_false hne
  have h2 : (st.distLoc = BASE_LOC_DIST_V2) = True := eq_true hv2
  obtain ⟨rkey, rdir, rval, rnodes⟩ := root
  constructor
  · intro h
    cases rdir with
    | false => rfl
    | true =>
      have hnone := v2Strs_none_of_nondir rkey h
      simp only [EtcdNode.nodes] at hnone
      simp [parseResponse, h1, h2, parseResponseV2, hnone,
        EtcdNode.dir, EtcdNode.key, EtcdNode.nodes]
  · intro pre post bad name hnodes hbdir hbkey hbname
    have hnodes' : rnodes = pre ++ bad :: post := hnodes
    subst hnodes'
    have hskip := v2Strs_skip rkey name bad hbdir hbkey hbname pre post
    cases rdir with
    | false => rfl
    | true =>
      simp [parseResponse, h1, h2, parseResponseV2, hskip,
        EtcdNode.dir, EtcdNode.key, EtcdNode.nodes]

/-- C10 witness: a non-directory child makes the snapshot a no-op on the
fresh client state. -/
theorem claim10_witness :
    parseResponse stFresh
      (EtcdNode.mk "p" true none [EtcdNode.mk "p/0" false none []]) = stFresh :=
  (claim10_v2_abort_and_skip stFresh
      (EtcdNode.mk "p" true none [EtcdNode.mk "p/0" false none []]) rfl).1
    ⟨EtcdNode.mk "p/0" false none [], List.mem_singleton.mpr rfl, rfl⟩

/-! ## C6 — version probing and stickiness -/

/-- C6 counterexample: when the v2 probe shows no `reg` child (here: the v2
GET fails) and the v1 GET also fails, `checkDistVersion` does NOT fall back
to the v1 layout — it returns v2.  The claim's "otherwise it falls back to
the v1 layout" is therefore false on this store. -/
theorem claim6_cex :
    (newClientState (fun _ => none) "b" "s").distLoc = BASE_LOC_DIST_V2 ∧
    BASE_LOC_DIST_V2 ≠ BASE_LOC_DIST :=
  ⟨rfl, by decide⟩

/-- C6 (amended): a client probes v2 first and uses v2 when some slot
directory shows a non-empty `reg` child; otherwise it falls back to v1 only
when the v1 directory is readable, and defaults to v2 when neither probe
succeeds.  The version chosen at construction is sticky: no snapshot ever
changes `distLoc`. -/
theorem claim6_amended (store : String → Option EtcdNode) (pre loc : String) :
    (∀ root, store (pre ++ "/" ++ BASE_LOC_DIST_V2 ++ "/" ++ loc) = some root →
      hasRegChild root = true →
      checkDistVersion store pre loc = BASE_LOC_DIST_V2) ∧
    ((store (pre ++ "/" ++ BASE_LOC_DIST_V2 ++ "/" ++ loc) = none ∨
      (∃ root, store (pre ++ "/" ++ BASE_LOC_DIST_V2 ++ "/" ++ loc) = some root ∧
        hasRegChild root = false)) →
      ((∃ r1, store (pre ++ "/" ++ BASE_LOC_DIST ++ "/" ++ loc) = some r1) →
        checkDistVersion store pre loc = BASE_LOC_DIST) ∧
      (store (pre ++ "/" ++ BASE_LOC_DIST ++ "/" ++ loc) = none →
        checkDistVersion store pre loc = BASE_LOC_DIST_V2)) ∧
    (∀ (st : ClientState) (r : EtcdNode), (parseResponse st r).distLoc = st.distLoc) ∧
    (newClientState store pre loc).distLoc = checkDistVersion store pre loc := by
  refine ⟨?_, ?_, ?_, rfl⟩
  · intro root hget hreg
    unfold checkDistVersion
    rw [hget]
    show (if hasRegChild root = true then BASE_LOC_DIST_V2
      else checkDistV1Fallback store pre loc) = BASE_LOC_DIST_V2
    rw [hreg]
    rfl
  · intro hv2miss
    have hfall : checkDistVersion store pre loc = checkDistV1Fallback store pre loc := by
      unfold checkDistVersion
      rcases hv2miss with hnone | ⟨root, hget, hreg⟩
      · rw [hnone]
      · rw [hget]
        show (if hasRegChild root = true then BASE_LOC_DIST_V2
          else checkDistV1Fallback store pre loc) = checkDistV1Fallback store pre loc
        rw [hreg]
        rfl
    constructor
    · rintro ⟨r1, hr1⟩
      rw [hfall]
      unfold checkDistV1Fallback
      rw [hr1]
    · intro hmiss
      rw [hfall]
      unfold checkDistV1Fallback
      rw [hmiss]
  · intro st r
    unfold parseResponse
    by_cases hdir : !r.dir
    · rw [if_pos hdir]
    · rw [if_neg hdir]
      by_cases hd1 : st.distLoc = BASE_LOC_DIST
      · rw [if_pos hd1]
        rfl
      · rw [if_neg hd1]
        by_cases hd2 : st.distLoc = BASE_LOC_DIST_V2
        · rw [if_pos hd2]
          unfold parseResponseV2
          cases v2Strs r.key r.nodes with
          | none => rfl
          | some strs => rfl
        · rw [if_neg hd2]

/-- A store holding only the v1 service directory. -/
def storeV1Only : String → Option EtcdNode := fun p =>
  if p = "b/" ++ BASE_LOC_DIST ++ "/s" then some (EtcdNode.mk ("b/" ++ BASE_LOC_DIST ++ "/s") true none [])
  else none

/-- C6 witness: with only a v1 directory present the probe falls back to
v1, and a snapshot leaves the chosen version unchanged. -/
theorem claim6_witness :
    checkDistVersion storeV1Only "b" "s" = BASE_LOC_DIST ∧
    (parseResponse stFresh (EtcdNode.mk "p" true none [])).distLoc = stFresh.distLoc :=
  ⟨((claim6_amended storeV1Only "b" "s").2.1 (Or.inl rfl)).1
      ⟨EtcdNode.mk ("b/" ++ BASE_LOC_DIST ++ "/s") true none [], rfl⟩,
   (claim6_amended storeV1Only "b" "s").2.2.1 stFresh (EtcdNode.mk "p" true none [])⟩

/-! ## C8 — monotonicity of the ring rebuild in the manual weight -/

/-- C8 counterexample: raising one instance's manual weight from 0 to 50
(0 < 50) does NOT keep all old labels: weight 0 defaults to 100 labels,
weight 50 yields only 50, so label "1-99" disappears. -/
theorem claim8_cex :
    (0 : Int) < 50 ∧
    ("1-99" : String) ∈ servListOf [(1, some (slotFix 0))] ∧
    ("1-99" : String) ∉ servListOf [(1, some (slotFix 50))] := by
  decide

/-- C8 (amended): the ring rebuild is monotone for nonzero weights — for
two snapshots differing only in one instance's manual weight, raised from
`w` to `w'` with `0 < w < w'`, the second label list contains every label of
the first, and any new label carries that instance's servId prefix. -/
theorem claim8_amended (pre post : List (Int × Option servCopyData))
    (sid : Int) (reg : Option RegData) (d : Bool) (g : String) (w w' : Int)
    (hw : 0 < w) (hww : w < w') :
    (∀ l ∈ servListOf (pre ++
        (sid, some ⟨sid, reg, some ⟨some ⟨w, d, g⟩⟩⟩) :: post),
      l ∈ servListOf (pre ++
        (sid, some ⟨sid, reg, some ⟨some ⟨w', d, g⟩⟩⟩) :: post)) ∧
    (∀ l ∈ servListOf (pre ++
        (sid, some ⟨sid, reg, some ⟨some ⟨w', d, g⟩⟩⟩) :: post),
      l ∈ servListOf (pre ++
        (sid, some ⟨sid, reg, some ⟨some ⟨w, d, g⟩⟩⟩) :: post) ∨
      ∃ i : Nat, l = s!"{sid}-{i}") := by
  have hw0 : w ≠ 0 := ne_of_gt hw
  have hw'0 : w' ≠ 0 := ne_of_gt (lt_trans hw hww)
  have hsub : ∀ l ∈ slotLabels sid (some ⟨sid, reg, some ⟨some ⟨w, d, g⟩⟩⟩),
      l ∈ slotLabels sid (some ⟨sid, reg, some ⟨some ⟨w', d, g⟩⟩⟩) := by
    intro l hl
    cases reg with
    | none => cases hl
    | some r =>
      by_cases he : r.servs.isEmpty
      · simp [slotLabels, he] at hl
      · cases hd : d
        · simp only [slotLabels, if_neg he, manualDisabled, hd,
            Bool.false_eq_true, if_false, List.mem_map] at hl ⊢
          obtain ⟨i, hi, rfl⟩ := hl
          refine ⟨i, ?_, rfl⟩
          rw [List.mem_range] at hi ⊢
          calc i < (effectiveWeight (some ⟨some ⟨w, d, g⟩⟩)).toNat := hi
            _ ≤ (effectiveWeight (some ⟨some ⟨w', d, g⟩⟩)).toNat := by
              simp only [effectiveWeight, manualWeight0, hw0, hw'0, if_neg]
              exact Int.toNat_le_toNat (le_of_lt hww)
        · subst hd
          simp [slotLabels, he, manualDisabled] at hl
  have hshape : ∀ l ∈ slotLabels sid (some ⟨sid, reg, some ⟨some ⟨w', d, g⟩⟩⟩),
      ∃ i : Nat, l = s!"{sid}-{i}" := by
    intro l hl
    cases reg with
    | none => cases hl
    | some r =>
      by_cases he : r.servs.isEmpty
      · simp [slotLabels, he] at hl
      · by_cases hdis : manualDisabled (some ⟨some ⟨w', d, g⟩⟩)
        · simp [slotLabels, he, hdis] at hl
        · simp only [slotLabels, if_neg he, if_neg hdis, List.mem_map] at hl
          obtain ⟨i, _, rfl⟩ := hl
          exact ⟨i, rfl⟩
  constructor
  · intro l hl
    rw [servListOf_append] at hl ⊢
    rcases List.mem_append.1 hl with h | h
    · exact List.mem_append.2 (Or.inl h)
    · rcases List.mem_append.1 h with h2 | h2
      · exact List.mem_append.2 (Or.inr (List.mem_append.2 (Or.inl (hsub l h2))))
      · exact List.mem_append.2 (Or.inr (List.mem_append.2 (Or.inr h2)))
  · intro l hl
    rw [servListOf_append] at hl
    rcases List.mem_append.1 hl with h | h
    · exact Or.inl (by
        rw [servListOf_append]
        exact List.mem_append.2 (Or.inl h))
    · rcases List.mem_append.1 h with h2 | h2
      · exact Or.inr (hshape l h2)
      · exact Or.inl (by
          rw [servListOf_append]
          exact List.mem_append.2 (Or.inr (List.mem_append.2 (Or.inr h2))))

/-- C8 witness: raising the weight from 1 to 2 keeps the label "1-0". -/
theorem claim8_witness :
    ("1-0" : String) ∈ servListOf
      [((1 : Int), some ⟨1, some regFix, some ⟨some ⟨2, false, ""⟩⟩⟩)] :=
  (claim8_amended [] [] 1 (some regFix) false "" 1 2 (by decide) (by decide)).1
    "1-0" (by decide)

/-! ## C1 — cross-DC registration failure is fatal, not best-effort -/

/-- An environment in which every collaborator succeeds. -/
def envAllOk : InitEnv :=
  { servBaseOk := true, backdoorOk := true, lockOk := true, initfnErr := none
    loadDriverErr := none, registerServiceErr := none, registerCrossDCErr := none
    metricsOk := true, model := MODEL_SERVER }

/-- A single valid user processor map. -/
def procsOk : List (String × Option Processor) := [("api", some { initErr := none })]

/-- C1 counterexample: with `RegisterService` succeeding and
`RegisterCrossDCService` failing, initialization does NOT succeed — `Init`
returns the cross-DC error (server.go lines 377-381 return it after
logging). -/
theorem claim1_cex :
    (InitServer { envAllOk with registerCrossDCErr := some "cross dc err" }
      procsOk).2 = some "cross dc err" := by
  decide

/-- C1 (amended): when validation, driver loading and `RegisterService` all
succeed but `RegisterCrossDCService` fails, the error is logged AND
returned: `initProcessor` fails with it — after the main registration was
performed — and `Init` propagates it, so a cross-DC registration failure is
fatal to the orchestrator. -/
theorem claim1_amended (env : InitEnv) (procs : List (String × Option Processor))
    (e : String)
    (hv : validateProcs procs = none) (hld : env.loadDriverErr = none)
    (hrs : env.registerServiceErr = none) (hcd : env.registerCrossDCErr = some e) :
    initProcessor env procs = ([Effect.csRegisterService], some e) ∧
    (env.servBaseOk = true →
      (env.model = MODEL_MASTERSLAVE → env.lockOk = true) →
      env.initfnErr = none →
      (InitServer env procs).2 = some e) := by
  have hip : initProcessor env procs = ([Effect.csRegisterService], some e) := by
    unfold initProcessor
    rw [hv, hld, hrs, hcd]
  refine ⟨hip, ?_⟩
  intro hsb hlock hfn
  unfold InitServer
  rw [hsb]
  have hms : (env.model = MODEL_MASTERSLAVE && !env.lockOk) = false := by
    by_cases hm : env.model = MODEL_MASTERSLAVE
    · rw [hlock hm]
      simp
    · simp [hm]
  rw [hms]
  rw [hfn]
  rw [hip]
  rfl

/-- C1 witness: the amended statement applied to the all-ok environment
with a failing cross-DC mirror. -/
theorem claim1_witness :
    initProcessor { envAllOk with registerCrossDCErr := some "edc" } procsOk =
      ([Effect.csRegisterService], some "edc") ∧
    (InitServer { envAllOk with registerCrossDCErr := some "edc" } procsOk).2 =
      some "edc" :=
  ⟨(claim1_amended _ procsOk "edc" rfl rfl rfl rfl).1,
   (claim1_amended _ procsOk "edc" rfl rfl rfl rfl).2 rfl (fun _ => rfl) rfl⟩

/-! ## C2 — invalid processor names abort before registration -/

theorem validateProcs_fails {procs : List (String × Option Processor)}
    (h : ∃ p ∈ procs, p.1.length = 0 ∨ headIsUnderscore p.1 = true ∨ p.2 = none) :
    ∃ e, validateProcs procs = some e := by
  induction procs with
  | nil =>
    obtain ⟨p, hp, _⟩ := h
    cases hp
  | cons q rest ih =>
    obtain ⟨n, p⟩ := q
    by_cases hlen : n.length = 0
    · exact ⟨"processor name empty", by simp [validateProcs, hlen]⟩
    · by_cases hund : headIsUnderscore n
      · exact ⟨underscoreMsg, by simp [validateProcs, hlen, hund]⟩
      · cases p with
        | none =>
          exact ⟨"processor:" ++ n ++ " is nil", by simp [validateProcs, hlen, hund]⟩
        | some proc =>
          cases hie : proc.initErr with
          | some e =>
            exact ⟨"processor:" ++ n ++ " init err:" ++ e,
              by simp [validateProcs, hlen, hund, hie]⟩
          | none =>
            obtain ⟨pq, hpq, hbad⟩ := h
            rcases List.mem_cons.1 hpq with rfl | htail
            · simp only at hbad
              rcases hbad with h0 | h0 | h0
              · exact absurd h0 hlen
              · exact absurd h0 hund
              · exact absurd h0 (by simp)
            · obtain ⟨e, he⟩ := ih ⟨pq, htail, hbad⟩
              exact ⟨e, by simp [validateProcs, hlen, hund, hie, he]⟩

/-- C2 counterexample: the failing startup with `{"_admin": ok}` DOES write
coordination-store keys before validation runs — the ServBase slot directory
(spec §4.2) and the backdoor registration (spec §4.4) precede
`initProcessor` in `Server.Init`, so "no coordination-store keys are
written" is false. -/
theorem claim2_cex :
    (InitServer envAllOk [("_admin", some { initErr := none })]).2 =
      some underscoreMsg ∧
    Effect.csCreateSlot ∈ (InitServer envAllOk [("_admin", some { initErr := none })]).1 := by
  decide

/-- C2 (amended): a processor map containing an empty name, a name beginning
with an underscore, or a nil processor makes initialization fail before any
*service registration*: neither `RegisterService` nor
`RegisterCrossDCService` is reached, so no service-registration keys are
written (the slot directory and backdoor keys of the earlier init steps may
already exist).  When the first map entry is a nonempty name beginning with
an underscore, the returned error message contains the substring
"processor name can not prefix underscore-quoted". -/
theorem claim2_amended (env : InitEnv) (procs : List (String × Option Processor))
    (hsb : env.servBaseOk = true)
    (hlock : env.model = MODEL_MASTERSLAVE → env.lockOk = true)
    (hfn : env.initfnErr = none)
    (hbad : ∃ p ∈ procs, p.1.length = 0 ∨ headIsUnderscore p.1 = true ∨ p.2 = none) :
    (∃ e, (InitServer env procs).2 = some e) ∧
    Effect.csRegisterService ∉ (InitServer env procs).1 ∧
    Effect.csRegisterCrossDC ∉ (InitServer env procs).1 ∧
    (∀ n p rest, procs = (n, p) :: rest → n.length ≠ 0 →
      headIsUnderscore n = true →
      ∃ m, (InitServer env procs).2 = some m ∧ containsSubstr m underscoreMsg) := by
  obtain ⟨e, he⟩ := validateProcs_fails hbad
  have hms : (env.model = MODEL_MASTERSLAVE && !env.lockOk) = false := by
    by_cases hm : env.model = MODEL_MASTERSLAVE
    · rw [hlock hm]
      simp
    · simp [hm]
  have hres : InitServer env procs =
      (Effect.csCreateSlot ::
        (if env.backdoorOk then [Effect.csRegisterBackdoor] else []), some e) := by
    unfold InitServer
    rw [hsb, hms, hfn]
    unfold initProcessor
    rw [he]
    simp
  refine ⟨⟨e, by rw [hres]⟩, ?_, ?_, ?_⟩
  · rw [hres]
    by_cases hb : env.backdoorOk <;> simp [hb]
  · rw [hres]
    by_cases hb : env.backdoorOk <;> simp [hb]
  · intro n p rest hps hlen hund
    have hvm : validateProcs procs = some underscoreMsg := by
      rw [hps]
      unfold validateProcs
      rw [if_neg hlen, if_pos hund]
    rw [hvm] at he
    cases he
    exact ⟨underscoreMsg, by rw [hres], containsSubstr_self underscoreMsg⟩

/-- C2 witness: the `{"_admin": ok}` startup fails with the reserved-name
message, performs no service registration, yet has already created the slot. -/
theorem claim2_witness :
    Effect.csRegisterService ∉ (InitServer envAllOk [("_admin", some { initErr := none })]).1 ∧
    (∃ m, (InitServer envAllOk [("_admin", some { initErr := none })]).2 = some m ∧
      containsSubstr m underscoreMsg) :=
  ⟨(claim2_amended envAllOk [("_admin", some { initErr := none })] rfl
      (fun _ => rfl) rfl ⟨("_admin", some { initErr := none }),
        List.mem_singleton.mpr rfl, Or.inr (Or.inl (by decide))⟩).2.1,
   (claim2_amended envAllOk [("_admin", some { initErr := none })] rfl
      (fun _ => rfl) rfl ⟨("_admin", some { initErr := none }),
        List.mem_singleton.mpr rfl, Or.inr (Or.inl (by decide))⟩).2.2.2
      "_admin" (some { initErr := none }) [] rfl (by decide) (by decide)⟩

/-! ## C7 — v1 and v2 layouts route identically

A service state representable in both layouts is a list of slots, each a
child name paired with its processor map.  The v1 directory stores the
encoded map as the slot value; the v2 directory stores
`{"servs": …}` under the slot's `reg` child. -/

/-- One slot of the v1 layout: the value is the raw servs JSON mapping. -/
def v1SlotNode (rootKey : String) (p : String × List (String × Option ServInfo)) :
    EtcdNode :=
  EtcdNode.mk (rootKey ++ "/" ++ p.1) false (some (encodeServs p.2)) []

/-- One slot of the v2 layout: a directory with a `reg` child holding the
`{servs: …}` JSON document. -/
def v2SlotNode (rootKey : String) (p : String × List (String × Option ServInfo)) :
    EtcdNode :=
  EtcdNode.mk (rootKey ++ "/" ++ p.1) true none
    [EtcdNode.mk (rootKey ++ "/" ++ p.1 ++ "/" ++ BASE_LOC_REG_SERV) false
      (some (JVal.jobj [("servs", encodeServs p.2)])) []]

/-- The v1 service directory for a state. -/
def v1Root (rootKey : String)
    (state : List (String × List (String × Option ServInfo))) : EtcdNode :=
  EtcdNode.mk rootKey true none (state.map (v1SlotNode rootKey))

/-- The v2 service directory for a state. -/
def v2Root (rootKey : String)
    (state : List (String × List (String × Option ServInfo))) : EtcdNode :=
  EtcdNode.mk rootKey true none (state.map (v2SlotNode rootKey))

/-- The slots whose names parse as non-negative integers — the ones either
layout keeps. -/
def stateIds (state : List (String × List (String × Option ServInfo))) :
    List (Int × List (String × Option ServInfo)) :=
  state.filterMap (fun p =>
    match atoi p.1 with
    | none => none
    | some id => if id < 0 then none else some (id, p.2))

/-- The only difference between the copies assembled by the two layouts:
v2 always materializes a (here empty) `ManualData`, v1 leaves it nil. -/
def addManual : Option servCopyData → Option servCopyData
  | none => none
  | some c => some { c with manual := some { ctrl := none } }

theorem decode_encode_servInfoPtr (si : Option ServInfo) :
    decodeServInfoPtr (encodeServInfoPtr si) = some si := by
  cases si with
  | none => rfl
  | some s =>
    show decodeServInfoPtr (JVal.jobj
      [("type", JVal.jstr s.type), ("addr", JVal.jstr s.addr)]) = some (some s)
    simp [decodeServInfoPtr, decodeServInfo, getStrField, goLookup]

theorem decode_encode_servsList (servs : List (String × Option ServInfo)) :
    decodeServsList (servs.map (fun p => (p.1, encodeServInfoPtr p.2))) = some servs := by
  induction servs with
  | nil => rfl
  | cons p rest ih =>
    obtain ⟨k, si⟩ := p
    simp [decodeServsList, decode_encode_servInfoPtr, ih]

theorem decode_encode_servs (servs : List (String × Option ServInfo)) :
    decodeServs (encodeServs servs) = some servs :=
  decode_encode_servsList servs

theorem decode_reg_roundtrip (servs : List (String × Option ServInfo)) :
    decodeRegData (JVal.jobj [("servs", encodeServs servs)]) =
      some { servs := servs } := by
  simp [decodeRegData, encodeServs, goLookup, decodeServs, decode_encode_servsList servs]

theorem v1Strs_construct (rk : String)
    (state : List (String × List (String × Option ServInfo))) :
    v1Strs rk (state.map (v1SlotNode rk)) =
      (stateIds state).map (fun q => (q.1, some (encodeServs q.2))) := by
  induction state with
  | nil => rfl
  | cons p rest ih =>
    obtain ⟨name, servs⟩ := p
    have hdrop : (v1SlotNode rk (name, servs)).key.drop (rk.length + 1) = name :=
      drop_parent_key rk name
    simp only [List.map_cons, v1Strs, hdrop, stateIds, List.filterMap_cons]
    cases hato : atoi name with
    | none =>
      simpa [stateIds] using ih
    | some id =>
      by_cases hneg : id < 0
      · simp only [hneg, if_true, if_pos hneg]
        simpa [stateIds] using ih
      · simp only [if_neg hneg]
        simp only [stateIds] at ih
        rw [ih]
        rfl

theorem v2Strs_construct (rk : String)
    (state : List (String × List (String × Option ServInfo))) :
    v2Strs rk (state.map (v2SlotNode rk)) =
      some ((stateIds state).map
        (fun q => (q.1, (some (JVal.jobj [("servs", encodeServs q.2)]), none)))) := by
  induction state with
  | nil => rfl
  | cons p rest ih =>
    obtain ⟨name, servs⟩ := p
    have hdrop : (v2SlotNode rk (name, servs)).key.drop (rk.length + 1) = name :=
      drop_parent_key rk name
    have hscan : scanRegManual (v2SlotNode rk (name, servs)).key
        (v2SlotNode rk (name, servs)).nodes =
        (some (JVal.jobj [("servs", encodeServs servs)]), none) := by
      show scanRegManual (rk ++ "/" ++ name)
        [EtcdNode.mk (rk ++ "/" ++ name ++ "/" ++ BASE_LOC_REG_SERV) false
          (some (JVal.jobj [("servs", encodeServs servs)])) []] = _
      unfold scanRegManual
      simp [EtcdNode.key, EtcdNode.value]
    have hdirv : (v2SlotNode rk (name, servs)).dir = true := rfl
    simp only [List.map_cons, v2Strs, hdrop, hdirv, if_true, stateIds,
      List.filterMap_cons]
    cases hato : atoi name with
    | none =>
      simpa [stateIds] using ih
    | some id =>
      by_cases hneg : id < 0
      · simp only [hneg, if_true, if_pos hneg]
        simpa [stateIds] using ih
      · simp only [if_neg hneg]
        simp only [stateIds] at ih
        rw [ih, hscan]
        rfl

theorem buildV2_eq_map (state : List (String × List (String × Option ServInfo))) :
    buildV2 ((stateIds state).map
        (fun q => (q.1, (some (JVal.jobj [("servs", encodeServs q.2)]), none)))) =
      (buildV1 ((stateIds state).map (fun q => (q.1, some (encodeServs q.2))))).map
        (fun p => (p.1, addManual p.2)) := by
  unfold buildV1 buildV2
  rw [List.map_filterMap]
  have hfst1 : ((stateIds state).map
      (fun q => (q.1, some (encodeServs q.2)))).map Prod.fst =
      (stateIds state).map Prod.fst := by
    rw [List.map_map]
    rfl
  have hfst2 : ((stateIds state).map
      (fun q => (q.1, (some (JVal.jobj [("servs", encodeServs q.2)]),
        (none : Option JVal))))).map Prod.fst =
      (stateIds state).map Prod.fst := by
    rw [List.map_map]
    rfl
  rw [hfst1, hfst2]
  apply List.filterMap_congr
  intro i _
  have hlk1 : goLookup ((stateIds state).map
      (fun q => (q.1, some (encodeServs q.2)))) i =
      (goLookup (stateIds state) i).map (fun s => some (encodeServs s)) :=
    goLookup_map_values (fun s => some (encodeServs s)) (stateIds state) i
  have hlk2 : goLookup ((stateIds state).map
      (fun q => (q.1, (some (JVal.jobj [("servs", encodeServs q.2)]),
        (none : Option JVal))))) i =
      (goLookup (stateIds state) i).map
        (fun s => (some (JVal.jobj [("servs", encodeServs s)]),
          (none : Option JVal))) :=
    goLookup_map_values
      (fun s => (some (JVal.jobj [("servs", encodeServs s)]), (none : Option JVal)))
      (stateIds state) i
  rw [hlk1, hlk2]
  cases goLookup (stateIds state) i with
  | none => rfl
  | some servs =>
    simp [decode_reg_roundtrip servs, decode_encode_servs servs, addManual]

theorem buildV1_manual_none (strs : List (Int × Option JVal)) :
    ∀ p ∈ buildV1 strs, ∀ c, p.2 = some c → c.manual = none := by
  intro p hp c hc
  unfold buildV1 at hp
  obtain ⟨i, _, hGi⟩ := List.mem_filterMap.1 hp
  cases hg : goLookup strs i with
  | none =>
    rw [hg] at hGi
    cases hGi
  | some v =>
    rw [hg] at hGi
    cases hGi
    cases hc
    rfl

theorem servListOf_addManual (l : List (Int × Option servCopyData))
    (h : ∀ p ∈ l, ∀ c, p.2 = some c → c.manual = none) :
    servListOf (l.map (fun p => (p.1, addManual p.2))) = servListOf l := by
  induction l with
  | nil => rfl
  | cons p rest ih =>
    obtain ⟨sid, copt⟩ := p
    have hs : slotLabels sid (addManual copt) = slotLabels sid copt := by
      cases copt with
      | none => rfl
      | some c =>
        have hm : c.manual = none := h (sid, some c) (List.mem_cons_self _ _) c rfl
        obtain ⟨csid, creg, cman⟩ := c
        have hm' : cman = none := hm
        subst hm'
        cases creg with
        | none => rfl
        | some r =>
          by_cases he : r.servs.isEmpty <;>
            simp [slotLabels, addManual, he, manualDisabled, effectiveWeight,
              manualWeight0]
    show slotLabels sid (addManual copt) ++ _ = slotLabels sid copt ++ _
    rw [hs, ih (fun q hq => h q (List.mem_cons_of_mem _ hq))]

theorem getServAddr_addManual (l : List (Int × Option servCopyData))
    (h : ∀ p ∈ l, ∀ c, p.2 = some c → c.manual = none) (sid : Int) (proc : String) :
    getServAddrWithServid (l.map (fun p => (p.1, addManual p.2))) sid proc =
      getServAddrWithServid l sid proc := by
  unfold getServAddrWithServid
  rw [goLookup_map_values]
  cases hg : goLookup l sid with
  | none => rfl
  | some copt =>
    cases copt with
    | none => rfl
    | some c =>
      have hm : c.manual = none := h (sid, some c) (goLookup_mem hg) c rfl
      obtain ⟨csid, creg, cman⟩ := c
      have hm' : cman = none := hm
      subst hm'
      cases creg with
      | none => rfl
      | some r => simp [addManual, manualDisabled]

/-- C7: a v1 snapshot (each slot's value is the raw servs JSON mapping,
manual nil) and the corresponding v2 snapshot (the same servs under the
slot's `reg` child, no manual data) yield equal `GetServAddr` results for
every processor name and routing key. -/
theorem claim7_v1_v2_equivalence (path1 path2 : String)
    (state : List (String × List (String × Option ServInfo))) (proc key : String) :
    GetServAddr (parseResponse
        { distLoc := BASE_LOC_DIST, servPath := path1, servCopy := [], servHash := none }
        (v1Root path1 state)) proc key =
      GetServAddr (parseResponse
        { distLoc := BASE_LOC_DIST_V2, servPath := path2, servCopy := [], servHash := none }
        (v2Root path2 state)) proc key := by
  have e1 : parseResponse
      { distLoc := BASE_LOC_DIST, servPath := path1, servCopy := [], servHash := none }
      (v1Root path1 state) =
      upServlist
        { distLoc := BASE_LOC_DIST, servPath := path1, servCopy := [], servHash := none }
        (buildV1 ((stateIds state).map (fun q => (q.1, some (encodeServs q.2))))) := by
    show parseResponseV1 _ (v1Root path1 state) = _
    unfold parseResponseV1
    rw [show (v1Root path1 state).nodes = state.map (v1SlotNode path1) from rfl,
      show (v1Root path1 state).key = path1 from rfl, v1Strs_construct path1 state]
  have e2 : parseResponse
      { distLoc := BASE_LOC_DIST_V2, servPath := path2, servCopy := [], servHash := none }
      (v2Root path2 state) =
      upServlist
        { distLoc := BASE_LOC_DIST_V2, servPath := path2, servCopy := [], servHash := none }
        ((buildV1 ((stateIds state).map
            (fun q => (q.1, some (encodeServs q.2))))).map
          (fun p => (p.1, addManual p.2))) := by
    show parseResponseV2 _ (v2Root path2 state) = _
    unfold parseResponseV2
    rw [show (v2Root path2 state).nodes = state.map (v2SlotNode path2) from rfl,
      show (v2Root path2 state).key = path2 from rfl, v2Strs_construct path2 state]
    rw [show (match some ((stateIds state).map
        (fun q => (q.1, (some (JVal.jobj [("servs", encodeServs q.2)]), none)))) with
      | none => upServlist
          { distLoc := BASE_LOC_DIST_V2, servPath := path2, servCopy := [],
            servHash := none } (buildV2 [])
      | some strs => upServlist
          { distLoc := BASE_LOC_DIST_V2, servPath := path2, servCopy := [],
            servHash := none } (buildV2 strs)) =
      upServlist
        { distLoc := BASE_LOC_DIST_V2, servPath := path2, servCopy := [],
          servHash := none }
        (buildV2 ((stateIds state).map
          (fun q => (q.1, (some (JVal.jobj [("servs", encodeServs q.2)]), none)))))
      from rfl]
    rw [buildV2_eq_map state]
  rw [e1, e2]
  set scopy1 := buildV1 ((stateIds state).map
    (fun q => (q.1, some (encodeServs q.2)))) with hscopy1
  have hman : ∀ p ∈ scopy1, ∀ c, p.2 = some c → c.manual = none :=
    buildV1_manual_none _
  have hlabels : servListOf (scopy1.map (fun p => (p.1, addManual p.2))) =
      servListOf scopy1 := servListOf_addManual scopy1 hman
  have final : ∀ stA stB : ClientState,
      stA.servHash = stB.servHash →
      (∀ (sid : Int) (proc' : String),
        getServAddrWithServid stA.servCopy sid proc' =
          getServAddrWithServid stB.servCopy sid proc') →
      GetServAddr stA proc key = GetServAddr stB proc key := by
    intro stA stB hh hc
    have hpick : ringPickSid stA key = ringPickSid stB key := by
      unfold ringPickSid
      rw [hh]
    unfold GetServAddr
    rw [hpick]
    cases ringPickSid stB key with
    | none => rfl
    | some sid => exact hc sid proc
  apply final
  · exact congrArg some hlabels.symm
  · intro sid proc'
    exact (getServAddr_addManual scopy1 hman sid proc').symm

end Rocserv
